import Mathlib

/-!
Shallow embedding of the branch-merge orchestration core of `err_stash.py`.

The provider boundary (the `StashAPI` / `GithubAPI` classes, whose bodies
delegate to the external `stashy` / `pygithub` SDKs) is modelled as records of
functions (`StashEnv`, `GithubEnv`).  Side-effecting provider operations
(merging a pull request, deleting a branch, declining a pull request) are
recorded in an `Effects` value instead of being executed, so theorems can
speak about which mutating calls a run performs.  Python runtime failures that
the core can hit (`CheckError`, `IndexError`, `StopIteration`,
`AttributeError`, `TypeError`) are modelled by the `PyErr` type.
-/

namespace ErrStash

/-- The `Branch` attr class of `err_stash.py` (line 165): fields `id`,
`display_id`, `latest_commit` and nothing else. -/
structure Branch where
  id : String
  display_id : String
  latest_commit : String
deriving Repr, DecidableEq

/-- A Stash pull-request dict as the core reads it: `pr["id"]`,
`pr["fromRef"]["id"]`, `pr["toRef"]["id"]`, `get_self_url(pr)` and
`pr["version"]`. -/
structure StashPR where
  id : String
  fromRef : String
  toRef : String
  url : String
  version : String
deriving Repr, DecidableEq

/-- A pygithub pull-request object as the core reads it: `pr.number`,
`pr.head.ref`, `pr.base.ref`, `pr.html_url`, `pr.mergeable`. -/
structure GithubPR where
  number : Nat
  headRef : String
  baseRef : String
  url : String
  mergeable : Bool
deriving Repr, DecidableEq

/-- `plan.pull_requests` holds raw provider objects: dicts for Stash plans and
`PullRequest` objects for GitHub plans; the code dispatches on
`isinstance(x, PullRequest)` or on `plan.comes_from_github`. -/
inductive PRData where
  | stash (pr : StashPR)
  | github (pr : GithubPR)
deriving Repr, DecidableEq

/-- The `MergePlan` attr class (line 172). `comes_from_github` defaults to
`None` (falsy) for Stash plans and is set to `True` for GitHub plans; we model
it as a `Bool`. -/
structure MergePlan where
  project : String
  slug : String
  comes_from_github : Bool
  branches : List Branch
  pull_requests : List PRData
  to_branch : Option String
deriving Repr, DecidableEq

/-- A Stash repo dict as used by `create_plans`: `repo["slug"]`,
`repo["project"]["key"]`. -/
structure StashRepo where
  slug : String
  projectKey : String
deriving Repr, DecidableEq

/-- A pygithub branch object as used by `create_plans`: `b.name`,
`b.commit.sha`. -/
structure GBranch where
  name : String
  sha : String
deriving Repr, DecidableEq

/-- The `StashAPI` boundary.  `fetch_repo_commits` returns `none` to model
`stashy.errors.NotFoundException`; every other operation returns data.  The
mutating operations (`delete_branch`, pull-request `merge`/`decline`) are not
part of the environment: the core's calls to them are recorded in `Effects`. -/
structure StashEnv where
  url : String
  fetch_repos : String → List StashRepo
  fetch_branches : String → String → String → List Branch
  fetch_pull_requests : String → String → List StashPR
  can_merge : String → String → String → Bool
  fetch_repo_commits : String → String → String → String → Option (List String)

/-- The `GithubAPI` boundary.  `fetch_repos` yields repository names (the core
only reads `repo.name`); `fetch_branches org repo branch_name` returns the
branch list (empty list, not an error, when the name does not exist). -/
structure GithubEnv where
  url : String
  fetch_repos : String → List String
  fetch_branches : String → String → String → List GBranch
  fetch_pull_requests : String → String → List GithubPR
  fetch_repo_commits : String → String → String → String → List String

/-- Python runtime outcomes the modelled code can raise.  `check` is the
`CheckError` class (line 201) with its `lines` attribute. -/
inductive PyErr where
  | check (lines : List String)
  | indexError
  | stopIteration
  | attributeError
  | typeError
deriving Repr, DecidableEq

instance {ε α : Type} [DecidableEq ε] [DecidableEq α] : DecidableEq (Except ε α) := fun x y =>
  match x, y with
  | .ok a, .ok b =>
    if h : a = b then .isTrue (congrArg Except.ok h)
    else .isFalse (fun hc => h (Except.ok.inj hc))
  | .error a, .error b =>
    if h : a = b then .isTrue (congrArg Except.error h)
    else .isFalse (fun hc => h (Except.error.inj hc))
  | .ok _, .error _ => .isFalse (fun hc => Except.noConfusion hc)
  | .error _, .ok _ => .isFalse (fun hc => Except.noConfusion hc)

/-- Markdown backtick quoting used throughout the report strings. -/
def backquote (s : String) : String := "`" ++ s ++ "`"

/-- Substring test on explicit character lists (Python's `needle in haystack`). -/
def listContainsSub (needle : List Char) : List Char → Bool
  | [] => needle.isEmpty
  | c :: rest => needle.isPrefixOf (c :: rest) || listContainsSub needle rest

/-- Python's `needle in haystack` on strings. -/
def strContains (haystack needle : String) : Bool :=
  listContainsSub needle.data haystack.data

/-- Fuel-driven replace-all on character lists; with fuel at least the length
of the input it replaces every occurrence, like Python's `str.replace`. -/
def replaceFuel (pat rep : List Char) : Nat → List Char → List Char
  | 0, s => s
  | _ + 1, [] => []
  | fuel + 1, c :: rest =>
    if pat.isPrefixOf (c :: rest) && !pat.isEmpty then
      rep ++ replaceFuel pat rep fuel ((c :: rest).drop pat.length)
    else
      c :: replaceFuel pat rep fuel rest

/-- Python's `s.replace(pat, rep)` (replaces every occurrence). -/
def pyReplace (s pat rep : String) : String :=
  String.mk (replaceFuel pat.data rep.data s.data.length s.data)

/-- `commits_text` (line 195): `"X commits"` / `"1 commit"`. -/
def commits_text (commits : List String) : String :=
  let plural := if commits.length ≠ 1 then "s" else ""
  toString commits.length ++ " commit" ++ plural

/-- `x.number if isinstance(x, PullRequest) else x["id"]`. -/
def prId : PRData → String
  | .stash pr => pr.id
  | .github pr => toString pr.number

/-- `get_self_url` (line 190): `html_url` for GitHub PRs, the self link for
Stash PR dicts. -/
def get_self_url : PRData → String
  | .stash pr => pr.url
  | .github pr => pr.url

/-- A `[PR#id](url)` link as the error reports render it. -/
def prLink (pr : PRData) : String :=
  "[PR#" ++ prId pr ++ "](" ++ get_self_url pr ++ ")"

/-- Hex digit (uppercase), for percent-encoding. -/
def hexDigit (n : Nat) : Char :=
  if n < 10 then Char.ofNat (48 + n) else Char.ofNat (55 + n)

/-- UTF-8 bytes of a code point, as `Nat`s below 256. -/
def utf8Bytes (n : Nat) : List Nat :=
  if n < 0x80 then [n]
  else if n < 0x800 then [0xC0 + n / 0x40, 0x80 + n % 0x40]
  else if n < 0x10000 then
    [0xE0 + n / 0x1000, 0x80 + (n / 0x40) % 0x40, 0x80 + n % 0x40]
  else
    [0xF0 + n / 0x40000, 0x80 + (n / 0x1000) % 0x40, 0x80 + (n / 0x40) % 0x40, 0x80 + n % 0x40]

/-- `%XX` escape of one byte. -/
def percentByte (b : Nat) : List Char :=
  ['%', hexDigit (b / 16), hexDigit (b % 16)]

/-- `urllib.parse.quote_plus` on one character: alphanumerics and `_.-~` kept,
space becomes `+`, anything else percent-encoded byte-wise. -/
def quotePlusChar (c : Char) : List Char :=
  if c.isAlphanum || c = '_' || c = '.' || c = '-' || c = '~' then [c]
  else if c = ' ' then ['+']
  else (utf8Bytes c.toNat).flatMap percentByte

/-- `urllib.parse.quote_plus` on a string. -/
def quotePlus (s : String) : String :=
  String.mk (s.data.flatMap quotePlusChar)

/-- `urlencode(OrderedDict([(k1, v1), (k2, v2)]))`. -/
def urlencode2 (k1 v1 k2 v2 : String) : String :=
  quotePlus k1 ++ "=" ++ quotePlus v1 ++ "&" ++ quotePlus k2 ++ "=" ++ quotePlus v2

/-- `make_pr_link` (line 407): path-segment compare URL for GitHub, query-string
compare URL for Stash. -/
def make_pr_link (url project slug from_branch to_branch : String) : String :=
  if strContains url "github.com" then
    url ++ "/" ++ project ++ "/" ++ slug ++ "/compare/" ++ to_branch ++ "..." ++ from_branch
  else
    url ++ "/projects/" ++ project ++ "/repos/" ++ slug ++ "/compare/commits?"
      ++ urlencode2 "sourceBranch" from_branch "targetBranch" to_branch

/-- The plan a matching Stash repo contributes (lines 244-255): the matched
branches, the open PRs whose source ref is among them, and `to_branch` set
from the first such PR. -/
def stashPlanOf (project slug : String) (branches : List Branch) (prs : List StashPR) :
    MergePlan :=
  { project := project, slug := slug, comes_from_github := false,
    branches := branches, pull_requests := prs.map PRData.stash,
    to_branch := prs.head?.map StashPR.toRef }

/-- The per-Stash-repo body of the `create_plans` discovery loop (lines
233-255): fetch branches filtered by `branch_text`, optionally keep only exact
display-id matches, and build a plan when at least one branch remains. -/
def mkStashPlan (stash_api : StashEnv) (branch_text : String) (exactly_branch_name : Bool)
    (repo : StashRepo) : Option MergePlan :=
  let slug := repo.slug
  let project := repo.projectKey
  let branches := stash_api.fetch_branches project slug branch_text
  let branches :=
    if exactly_branch_name then branches.filter (fun b => b.display_id = branch_text)
    else branches
  if branches.isEmpty then none
  else
    let branch_ids := branches.map Branch.id
    let prs := (stash_api.fetch_pull_requests project slug).filter
      (fun pr => branch_ids.contains pr.fromRef)
    some (stashPlanOf project slug branches prs)

/-- The Stash discovery loop: appends a plan per matching repo and raises the
`has_prs` flag whenever a pull request is attached to a plan. -/
def discoverStash (stash_api : StashEnv) (branch_text : String) (exactly_branch_name : Bool) :
    List StashRepo → List MergePlan × Bool → List MergePlan × Bool
  | [], acc => acc
  | repo :: rest, acc =>
    match mkStashPlan stash_api branch_text exactly_branch_name repo with
    | none => discoverStash stash_api branch_text exactly_branch_name rest acc
    | some plan =>
      discoverStash stash_api branch_text exactly_branch_name rest
        (acc.1 ++ [plan], acc.2 || !plan.pull_requests.isEmpty)

/-- The plan a matching GitHub repo contributes (lines 287-301): tagged
`comes_from_github`, branch ids equal to display ids, and every open PR whose
head ref equals the search name attached. -/
def githubPlanOf (organization repo_name : String) (branches : List GBranch)
    (prs : List GithubPR) : MergePlan :=
  { project := organization, slug := repo_name, comes_from_github := true,
    branches := branches.map (fun b =>
      { id := b.name, display_id := b.name, latest_commit := b.sha }),
    pull_requests := prs.map PRData.github,
    to_branch := prs.head?.map (fun pr => "refs/heads/" ++ pr.baseRef) }

/-- The per-GitHub-repo body of the discovery loop (lines 284-301), applied to
a completed branch-listing future: skip empty results, otherwise build a plan. -/
def mkGithubPlan (github_api : GithubEnv) (github_branch_text : String)
    (organization repo_name : String) (branches : List GBranch) : Option MergePlan :=
  if branches.isEmpty then none
  else
    let prs := (github_api.fetch_pull_requests organization repo_name).filter
      (fun pr => pr.headRef = github_branch_text)
    some (githubPlanOf organization repo_name branches prs)

/-- One pass of `for f in as_completed(futures.keys())` over the accumulated
futures (completion order modelled as submission order). -/
def githubInner (github_api : GithubEnv) (github_branch_text organization : String) :
    List (String × List GBranch) → List MergePlan × Bool → List MergePlan × Bool
  | [], acc => acc
  | fut :: rest, acc =>
    match mkGithubPlan github_api github_branch_text organization fut.1 fut.2 with
    | none => githubInner github_api github_branch_text organization rest acc
    | some plan =>
      githubInner github_api github_branch_text organization rest
        (acc.1 ++ [plan], acc.2 || !plan.pull_requests.isEmpty)

/-- The organization loop of `create_plans` (lines 267-301).  The `futures`
dict is created once *outside* the loop in the source, so each organization's
`as_completed(futures.keys())` pass re-walks every future submitted so far,
previous organizations' included; the model threads the accumulated futures
list to mirror that. -/
def discoverGithub (github_api : GithubEnv) (github_branch_text : String) :
    List (String × List String) → List MergePlan × Bool → List (String × List GBranch) →
      List MergePlan × Bool
  | [], acc, _ => acc
  | (organization, repo_names) :: rest, acc, futures =>
    let futures := futures ++ repo_names.map (fun rn =>
      (rn, github_api.fetch_branches organization rn github_branch_text))
    let acc := githubInner github_api github_branch_text organization futures acc
    discoverGithub github_api github_branch_text rest acc futures

/-- `organization_to_repos`: a `defaultdict(list)` accumulating
`fetch_repos(organization)` per organization, keys in first-insertion order. -/
def assocAppend (acc : List (String × List String)) (org : String) (repos : List String) :
    List (String × List String) :=
  match acc with
  | [] => [(org, repos)]
  | (k, v) :: rest =>
    if k = org then (k, v ++ repos) :: rest else (k, v) :: assocAppend rest org repos

/-- Builds the `organization_to_repos` map of `create_plans` (lines 263-265). -/
def organization_to_repos (github_api : GithubEnv) (orgs : List String) :
    List (String × List String) :=
  orgs.foldl (fun acc org => assocAppend acc org (github_api.fetch_repos org)) []

/-- The discovery phase of `create_plans` (lines 226-301), before the two
emptiness checks: returns the discovered plans and the `has_prs` flag. -/
def discover_plans (stash_api : StashEnv) (github_api : GithubEnv)
    (stash_projects github_organizations : List String)
    (branch_text : String) (exactly_branch_name : Bool) : List MergePlan × Bool :=
  let stash_repos := (stash_projects.map stash_api.fetch_repos).flatten
  let acc := discoverStash stash_api branch_text exactly_branch_name stash_repos ([], false)
  let github_branch_text :=
    match acc.1 with
    | [] => branch_text
    | p :: _ =>
      match p.branches with
      | [] => branch_text
      | b :: _ => b.display_id
  discoverGithub github_api github_branch_text
    (organization_to_repos github_api github_organizations) acc []

/-- The `NoMatchingBranch` message of `create_plans` (lines 303-311). -/
def noMatchingBranchMessage (branch_text : String)
    (stash_projects github_organizations : List String) : String :=
  "Could not find any branch with text `\"" ++ branch_text
    ++ "\"` in any repositories of Stash projects: "
    ++ String.intercalate ", " (stash_projects.map backquote)
    ++ " nor Github organizations: "
    ++ String.intercalate ", " (github_organizations.map backquote) ++ "."

/-- The `NoOpenPullRequest` message of `create_plans` (line 314). -/
def noOpenPRMessage (branch_text : String) : String :=
  "No PRs are open with text `\"" ++ branch_text ++ "\"`"

/-- `create_plans` (line 211): discovery over both providers followed by the
two fatal emptiness checks. -/
def create_plans (stash_api : StashEnv) (github_api : GithubEnv)
    (stash_projects github_organizations : List String)
    (branch_text : String) (exactly_branch_name assure_has_prs : Bool) :
    Except PyErr (List MergePlan) :=
  let acc := discover_plans stash_api github_api stash_projects github_organizations
    branch_text exactly_branch_name
  if acc.1.isEmpty then
    .error (.check [noMatchingBranchMessage branch_text stash_projects github_organizations])
  else if assure_has_prs && !acc.2 then
    .error (.check [noOpenPRMessage branch_text])
  else
    .ok acc.1

/-- The shared shape of the aggregating validation loops: scan every plan,
emit the header once before the first offending plan, then one line per
offending plan. -/
def aggregate (offends : MergePlan → Bool) (header : String) (line : MergePlan → String) :
    List MergePlan → List String → List String
  | [], error_lines => error_lines
  | plan :: rest, error_lines =>
    let error_lines :=
      if offends plan then
        (if error_lines.isEmpty then [header] else error_lines) ++ [line plan]
      else error_lines
    aggregate offends header line rest error_lines

/-- A plan matched by more than one branch. -/
def hasMultipleBranches (plan : MergePlan) : Bool := decide (1 < plan.branches.length)

/-- Header of the ambiguous-branch error (line 326). -/
def ambiguousHeader (branch_text : String) : String :=
  "More than one branch matches the text `\"" ++ branch_text ++ "\"`:"

/-- Per-plan line of the ambiguous-branch error (lines 328-329). -/
def ambiguousLine (plan : MergePlan) : String :=
  backquote plan.slug ++ ": "
    ++ String.intercalate ", " (plan.branches.map (fun b => backquote b.display_id))

/-- `ensure_text_matches_unique_branch` (line 318).  On success the code reads
`plans[0].branches[0]`, which raises `IndexError` when either list is empty. -/
def ensure_text_matches_unique_branch (plans : List MergePlan) (branch_text : String) :
    Except PyErr String :=
  let error_lines :=
    aggregate hasMultipleBranches (ambiguousHeader branch_text) ambiguousLine plans []
  if !error_lines.isEmpty then
    .error (.check (error_lines ++ ["Use a more complete text or remove one of the branches."]))
  else
    match plans with
    | [] => .error .indexError
    | plan :: _ =>
      match plan.branches with
      | [] => .error .indexError
      | b :: _ => .ok b.display_id

/-- A plan carrying more than one pull request. -/
def hasMultiplePRs (plan : MergePlan) : Bool := decide (1 < plan.pull_requests.length)

/-- Per-plan line of the duplicate-PR error (lines 350-359). -/
def multiplePRsLine (plan : MergePlan) : String :=
  backquote plan.slug ++ ": " ++ String.intercalate ", " (plan.pull_requests.map prLink)

/-- `ensure_unique_pull_requests` (line 339). -/
def ensure_unique_pull_requests (plans : List MergePlan) (from_branch_display_id : String) :
    Except PyErr Unit :=
  let error_lines :=
    aggregate hasMultiplePRs
      ("Multiples PRs for branch `" ++ from_branch_display_id ++ "` found:")
      multiplePRsLine plans []
  if !error_lines.isEmpty then
    .error (.check (error_lines ++ ["Sorry you will have to sort that mess yourself. :wink:"]))
  else .ok ()

/-- The target display of the divergent-target error (lines 392-396):
`pr.base.ref` for GitHub PRs, `pr["toRef"]["id"]` for Stash dicts. -/
def prTargetDisplay : PRData → String
  | .stash pr => pr.toRef
  | .github pr => pr.baseRef

/-- Per-plan line of the divergent-target error. -/
def divergentTargetLine (plan : MergePlan) : String :=
  match plan.pull_requests with
  | [] => ""
  | pr :: _ =>
    backquote plan.slug ++ ": " ++ prLink pr ++ " targets " ++ backquote (prTargetDisplay pr)

/-- `ensure_pull_requests_target_same_branch` (line 365): the first plan with a
PR fixes the expected target; any later plan with a PR and a different
`to_branch` flips the violation flag, after which every plan with a PR is
listed. -/
def ensure_pull_requests_target_same_branch (plans : List MergePlan)
    (from_branch_display_id : String) : Except PyErr Unit :=
  let withPrs := plans.filter (fun plan => !plan.pull_requests.isEmpty)
  let multiple_target_branches :=
    match withPrs with
    | [] => false
    | p :: rest => rest.any (fun q => q.to_branch ≠ p.to_branch)
  if multiple_target_branches then
    .error (.check
      (("PRs in repositories for branch `" ++ from_branch_display_id
          ++ "` have different targets:")
        :: withPrs.map divergentTargetLine
        ++ ["Fix those PRs and try again. ",
            "Alternately you can pass `--force` to force the merge with different targets!"]))
  else .ok ()

/-- Python truthiness of `plan.to_branch` (`None` and `""` are falsy). -/
def planToBranchTruthy (plan : MergePlan) : Option String :=
  match plan.to_branch with
  | none => none
  | some t => if t.isEmpty then none else some t

/-- `next(plan.to_branch for plan in plans if plan.to_branch)` (line 436): the
first truthy `to_branch` across all plans; `none` models `StopIteration`. -/
def firstTruthyToBranch (plans : List MergePlan) : Option String :=
  plans.findSome? planToBranchTruthy

/-- `ensure_has_pull_request` (line 552).  The message keeps the raw
triple-quoted indentation of the source. -/
def noPullRequestMessage : String := "\n    No pull request open for this branch!\n    "

/-- `ensure_has_pull_request`: fails when no plan has a truthy `to_branch`. -/
def ensure_has_pull_request (plans : List MergePlan) : Except PyErr Unit :=
  if plans.any (fun plan => (planToBranchTruthy plan).isSome) then .ok ()
  else .error (.check [noPullRequestMessage])

/-- `default_branch_exists` (lines 438-454): strip `refs/heads/` and re-check
the default target branch with a per-repo branch lookup on the plan's own
provider. -/
def default_branch_exists (stash_api : StashEnv) (github_api : GithubEnv)
    (default_branch : String) (plan : MergePlan) : Bool :=
  let branch_name := pyReplace default_branch "refs/heads/" ""
  if plan.comes_from_github then
    !(github_api.fetch_branches plan.project plan.slug branch_name).isEmpty
  else
    !(stash_api.fetch_branches plan.project plan.slug branch_name).isEmpty

/-- The per-plan diff target of `get_commits_about_to_be_merged_by_pull_requests`
(lines 456-462): the plan's own truthy `to_branch`, else the default target if
it exists in the plan's repo, else `refs/heads/master`. -/
def planDiffTarget (stash_api : StashEnv) (github_api : GithubEnv)
    (default_branch : String) (plan : MergePlan) : String :=
  match planToBranchTruthy plan with
  | some t => t
  | none =>
    if default_branch_exists stash_api github_api default_branch plan then default_branch
    else "refs/heads/master"

/-- The per-plan commit diff (lines 464-481): GitHub compares directly; the
Stash call's `NotFoundException` (`none`) is caught and turned into `[]`. -/
def diffAt (stash_api : StashEnv) (github_api : GithubEnv)
    (from_branch to_branch : String) (plan : MergePlan) : List String :=
  if plan.comes_from_github then
    github_api.fetch_repo_commits plan.project plan.slug from_branch to_branch
  else
    (stash_api.fetch_repo_commits plan.project plan.slug from_branch to_branch).getD []

/-- Header of the commits-without-PR error (lines 484-489). -/
def uncreatedHeader (from_branch : String) : String :=
  "These repositories have commits in `" ++ from_branch ++ "` but no PRs:"

/-- Per-plan line of the commits-without-PR error (lines 490-501). -/
def uncreatedLine (stash_api : StashEnv) (github_api : GithubEnv)
    (from_branch to_branch : String) (plan : MergePlan) (commits : List String) : String :=
  let pr_link := make_pr_link
    (if plan.comes_from_github then github_api.url else stash_api.url)
    plan.project plan.slug from_branch to_branch
  backquote plan.slug ++ ": **" ++ commits_text commits ++ "** ([create PR](" ++ pr_link ++ "))"

/-- The plan loop of `get_commits_about_to_be_merged_by_pull_requests` (lines
456-503), threading the error lines and the `(plan, commits)` result list. -/
def getCommitsLoop (stash_api : StashEnv) (github_api : GithubEnv)
    (from_branch default_branch : String) :
    List MergePlan → List String → List (MergePlan × List String) →
      List String × List (MergePlan × List String)
  | [], error_lines, result => (error_lines, result)
  | plan :: rest, error_lines, result =>
    let to_branch := planDiffTarget stash_api github_api default_branch plan
    let commits := diffAt stash_api github_api from_branch to_branch plan
    let error_lines :=
      if !commits.isEmpty && plan.pull_requests.isEmpty then
        (if error_lines.isEmpty then [uncreatedHeader from_branch] else error_lines)
          ++ [uncreatedLine stash_api github_api from_branch to_branch plan commits]
      else error_lines
    let result := if !commits.isEmpty then result ++ [(plan, commits)] else result
    getCommitsLoop stash_api github_api from_branch default_branch rest error_lines result

/-- `get_commits_about_to_be_merged_by_pull_requests` (line 430). -/
def get_commits_about_to_be_merged_by_pull_requests (stash_api : StashEnv)
    (github_api : GithubEnv) (plans : List MergePlan) (from_branch : String) :
    Except PyErr (List (MergePlan × List String)) :=
  match firstTruthyToBranch plans with
  | none => .error .stopIteration
  | some default_branch =>
    let acc := getCommitsLoop stash_api github_api from_branch default_branch plans [] []
    if !acc.1.isEmpty then
      .error (.check (acc.1 ++ ["You need to create PRs for your changes before merging this branch."]))
    else .ok acc.2

/-- Whether `ensure_no_conflicts` flags a plan: its first PR is not mergeable
(`pull_request.mergeable` for GitHub, `fetch_pull_request(...).can_merge()`
for Stash). -/
def conflictOffends (stash_api : StashEnv) (plan : MergePlan) : Bool :=
  match plan.pull_requests with
  | [] => false
  | pr :: _ =>
    !(match pr with
      | .github g => g.mergeable
      | .stash s => stash_api.can_merge plan.project plan.slug s.id)

/-- Header of the unmergeable-PR error (lines 536-539). -/
def conflictsHeader (from_branch : String) : String :=
  "The PRs below for branch `" ++ from_branch
    ++ "` have problems such as conflicts, build requirements, etc:"

/-- Per-plan line of the unmergeable-PR error (lines 541-545). -/
def conflictLine (plan : MergePlan) : String :=
  match plan.pull_requests with
  | [] => ""
  | pr :: _ => backquote plan.slug ++ ": [PR#" ++ prId pr ++ "](" ++ get_self_url pr ++ ")"

/-- The plan loop of `ensure_no_conflicts` (lines 517-545):
`plan.pull_requests[0]` raises `IndexError` on a plan without PRs. -/
def conflictsLoop (stash_api : StashEnv) (from_branch : String) :
    List MergePlan → List String → Except PyErr (List String)
  | [], error_lines => .ok error_lines
  | plan :: rest, error_lines =>
    match plan.pull_requests with
    | [] => .error .indexError
    | _ :: _ =>
      let error_lines :=
        if conflictOffends stash_api plan then
          (if error_lines.isEmpty then [conflictsHeader from_branch] else error_lines)
            ++ [conflictLine plan]
        else error_lines
      conflictsLoop stash_api from_branch rest error_lines

/-- `ensure_no_conflicts` (line 514). -/
def ensure_no_conflicts (stash_api : StashEnv) (from_branch : String)
    (plans : List MergePlan) : Except PyErr Unit :=
  match conflictsLoop stash_api from_branch plans [] with
  | .error e => .error e
  | .ok error_lines =>
    if error_lines.isEmpty then .ok ()
    else .error (.check (error_lines ++ ["Fix them and try again."]))

/-- The record of every mutating provider call a run performs.  Merging a
Stash PR passes the opaque `version` token; deleting a Stash branch in `merge`
passes the branch `id`, while `delete_branches` passes the `display_id`. -/
structure Effects where
  merged_stash : List (String × String × String × String)
  merged_github : List (String × String × Nat)
  deleted_stash : List (String × String × String)
  deleted_github : List (String × String × String)
  declined : List (String × String × String × String)
deriving Repr, DecidableEq

/-- No mutating call. -/
def Effects.empty : Effects :=
  { merged_stash := [], merged_github := [], deleted_stash := [],
    deleted_github := [], declined := [] }

/-- How a run of the generator ends: normally, or with a raised error. -/
inductive Outcome where
  | ok
  | err (e : PyErr)
deriving Repr, DecidableEq

/-- A run of the `merge` generator: the lines it yielded, the mutating calls
it made, and how it ended. -/
structure MergeResult where
  lines : List String
  effects : Effects
  outcome : Outcome
deriving Repr, DecidableEq

/-- The validation pipeline of `merge` (lines 594-607), in source order,
stopping at the first failing stage. -/
def mergeChecks (stash_api : StashEnv) (github_api : GithubEnv)
    (stash_projects github_organizations : List String)
    (branch_text : String) (force : Bool) :
    Except PyErr (List MergePlan × String × List (MergePlan × List String)) :=
  match create_plans stash_api github_api stash_projects github_organizations
      branch_text false true with
  | .error e => .error e
  | .ok plans =>
    match ensure_text_matches_unique_branch plans branch_text with
    | .error e => .error e
    | .ok from_branch =>
      match ensure_unique_pull_requests plans from_branch with
      | .error e => .error e
      | .ok _ =>
        match ensure_has_pull_request plans with
        | .error e => .error e
        | .ok _ =>
          match (if force then Except.ok () else
              ensure_pull_requests_target_same_branch plans from_branch) with
          | .error e => .error e
          | .ok _ =>
            match get_commits_about_to_be_merged_by_pull_requests stash_api github_api
                plans from_branch with
            | .error e => .error e
            | .ok plans_and_commits =>
              match ensure_no_conflicts stash_api from_branch
                  (plans_and_commits.map Prod.fst) with
              | .error e => .error e
              | .ok _ => .ok (plans, from_branch, plans_and_commits)

/-- The checkmark line of `merge` (lines 625-627). -/
def checkmarkLine (slug : String) (commits : List String) (to_branch : String) : String :=
  ":white_check_mark: " ++ backquote slug ++ " **" ++ commits_text commits ++ "** -> "
    ++ backquote (pyReplace to_branch "refs/heads/" "")

/-- The `(no changes)` line of `merge` (line 631). -/
def noChangesLine (slug : String) : String := backquote slug ++ " - (no changes)"

/-- The closing summary line of `merge` (lines 643-644). -/
def deletedSummaryLine (plans : List MergePlan) : String :=
  "Branch deleted from repositories: "
    ++ String.intercalate ", " (plans.map (fun p => backquote p.slug))

/-- Thirty dashes, as in `"-" * 30`. -/
def dashes30 : String := String.mk (List.replicate 30 '-')

/-- The dry-run marker line of `merge` (line 646). -/
def dryRunLine : String := dashes30 ++ " dry-run " ++ dashes30

/-- The merge loop of `merge` (lines 610-628): for each `(plan, commits)`
pair, select the pull request — `plan.pull_requests[0]` for GitHub plans,
`fetch_pull_request(..., plan.pull_requests[0]["id"])` for Stash plans
(IndexError when the list is empty, TypeError when subscripting a non-dict PR
object); merge it when `confirm` (an AttributeError when a dict reaches the
attribute-style `merge()` call); then yield the checkmark line — which
dereferences `plan.to_branch` and so raises AttributeError on `None`. -/
def mergeLoop1 (confirm : Bool) :
    List (MergePlan × List String) → List String → Effects → List String →
      List String × Effects × List String × Option PyErr
  | [], lines, eff, shown => (lines, eff, shown, none)
  | (plan, commits) :: rest, lines, eff, shown =>
    match plan.pull_requests with
    | [] => (lines, eff, shown, some .indexError)
    | pr :: _ =>
      let fetchRes : Except PyErr Unit :=
        if plan.comes_from_github then .ok ()
        else
          match pr with
          | .stash _ => .ok ()
          | .github _ => .error .typeError
      match fetchRes with
      | .error e => (lines, eff, shown, some e)
      | .ok _ =>
        let effRes : Except PyErr Effects :=
          if confirm then
            match plan.comes_from_github, pr with
            | true, .github gpr =>
              .ok { eff with merged_github :=
                eff.merged_github ++ [(plan.project, plan.slug, gpr.number)] }
            | false, .stash spr =>
              .ok { eff with merged_stash :=
                eff.merged_stash ++ [(plan.project, plan.slug, spr.id, spr.version)] }
            | _, _ => .error .attributeError
          else .ok eff
        match effRes with
        | .error e => (lines, eff, shown, some e)
        | .ok eff =>
          match plan.to_branch with
          | none => (lines, eff, shown, some .attributeError)
          | some tb =>
            mergeLoop1 confirm rest (lines ++ [checkmarkLine plan.slug commits tb]) eff
              (shown ++ [plan.slug])

/-- The deletion loop of `merge` (lines 633-642).  For a GitHub plan the
source evaluates `plan.branches[0].name`, but `Branch` defines only `id`,
`display_id` and `latest_commit`, so the attribute access raises
`AttributeError` before `delete_branch` can be called. -/
def mergeDeleteLoop (confirm : Bool) : List MergePlan → Effects → Effects × Option PyErr
  | [], eff => (eff, none)
  | plan :: rest, eff =>
    if confirm then
      if plan.comes_from_github then
        match plan.branches with
        | [] => (eff, some .indexError)
        | _ :: _ => (eff, some .attributeError)
      else
        match plan.branches with
        | [] => (eff, some .indexError)
        | b :: _ =>
          mergeDeleteLoop confirm rest
            { eff with deleted_stash := eff.deleted_stash ++ [(plan.project, plan.slug, b.id)] }
    else mergeDeleteLoop confirm rest eff

/-- The report/side-effect phase of `merge` (lines 609-646), reached only when
every validation stage passed. -/
def mergeBody (plans : List MergePlan) (from_branch : String)
    (plans_and_commits : List (MergePlan × List String)) (confirm : Bool) : MergeResult :=
  let start := mergeLoop1 confirm plans_and_commits
    ["Branch " ++ backquote from_branch ++ " merged into:"] Effects.empty []
  match start with
  | (lines, eff, shown, some e) =>
    let _ := shown
    { lines := lines, effects := eff, outcome := .err e }
  | (lines, eff, shown, none) =>
    let lines := lines ++ (plans.filter (fun p => !(shown.contains p.slug))).map
      (fun p => noChangesLine p.slug)
    match mergeDeleteLoop confirm plans eff with
    | (eff, some e) => { lines := lines, effects := eff, outcome := .err e }
    | (eff, none) =>
      let lines := lines ++ [deletedSummaryLine plans]
      let lines := if !confirm then lines ++ [dryRunLine] else lines
      { lines := lines, effects := eff, outcome := .ok }

/-- `merge` (line 560), as a run of the generator consumed to completion: a
validation failure escapes before the first yield, so the run has no lines and
no mutating calls; otherwise the report phase runs. -/
def merge (stash_api : StashEnv) (github_api : GithubEnv)
    (stash_projects github_organizations : List String)
    (branch_text : String) (confirm force : Bool) : MergeResult :=
  match mergeChecks stash_api github_api stash_projects github_organizations
      branch_text force with
  | .error e => { lines := [], effects := Effects.empty, outcome := .err e }
  | .ok (plans, from_branch, plans_and_commits) =>
    mergeBody plans from_branch plans_and_commits confirm

/-- The per-repository report line of `delete_branches` (lines 671 and 682). -/
def deleteLineFor (plan : MergePlan) : String :=
  if plan.comes_from_github then
    "Branch from `GitHub` project: " ++ backquote plan.project ++ " - repository: "
      ++ backquote plan.slug ++ " :nuclear-bomb:"
  else
    "Branch from `Stash` project: " ++ backquote plan.project ++ " - repository: "
      ++ backquote plan.slug ++ " :nuclear-bomb:"

/-- The plan loop of `delete_branches` (lines 664-682): GitHub plans get their
branch deleted by `display_id`; Stash plans first decline their first PR (when
one exists, via `fetch_pull_request(...).decline(version)`), then delete the
branch by `display_id`; each plan yields one line. -/
def deleteLoop : List MergePlan → List String → Effects →
    List String × Effects × Option PyErr
  | [], lines, eff => (lines, eff, none)
  | branch :: rest, lines, eff =>
    if branch.comes_from_github then
      match branch.branches with
      | [] => (lines, eff, some .indexError)
      | b :: _ =>
        deleteLoop rest (lines ++ [deleteLineFor branch])
          { eff with deleted_github :=
            eff.deleted_github ++ [(branch.project, branch.slug, b.display_id)] }
    else
      let declineRes : Except PyErr Effects :=
        match branch.pull_requests with
        | [] => .ok eff
        | .stash spr :: _ =>
          .ok { eff with declined :=
            eff.declined ++ [(branch.project, branch.slug, spr.id, spr.version)] }
        | .github _ :: _ => .error .typeError
      match declineRes with
      | .error e => (lines, eff, some e)
      | .ok eff =>
        match branch.branches with
        | [] => (lines, eff, some .indexError)
        | b :: _ =>
          deleteLoop rest (lines ++ [deleteLineFor branch])
            { eff with deleted_stash :=
              eff.deleted_stash ++ [(branch.project, branch.slug, b.display_id)] }

/-- `delete_branches` (line 649), phase 2 of the two-phase deletion workflow.
The provider handles are threaded but all their mutating calls are recorded in
`Effects`. -/
def delete_branches (stash_api : StashEnv) (github_api : GithubEnv)
    (branches_to_delete : List MergePlan) : MergeResult :=
  let _ := stash_api
  let _ := github_api
  match branches_to_delete with
  | [] => { lines := ["No branches to delete."], effects := Effects.empty, outcome := .ok }
  | first :: _ =>
    match first.branches with
    | [] => { lines := [], effects := Effects.empty, outcome := .err .indexError }
    | fb :: _ =>
      match deleteLoop branches_to_delete
          ["Deleting Branches " ++ backquote fb.display_id ++ ":"] Effects.empty with
      | (lines, eff, none) => { lines := lines, effects := eff, outcome := .ok }
      | (lines, eff, some e) => { lines := lines, effects := eff, outcome := .err e }

/-- The fully-qualified target ref a plan's first pull request merges into:
`pr["toRef"]["id"]` for Stash, `"refs/heads/" + pr.base.ref` for GitHub. -/
def prTargetRef : PRData → String
  | .stash pr => pr.toRef
  | .github pr => "refs/heads/" ++ pr.baseRef

/-- The construction invariant of plans built by `create_plans`: a non-empty
branch list, `to_branch` set exactly when a pull request was attached, and in
that case equal to the first pull request's target ref. -/
def planInv (plan : MergePlan) : Prop :=
  plan.branches ≠ [] ∧
  (plan.to_branch.isSome ↔ plan.pull_requests ≠ []) ∧
  ∀ pr prs, plan.pull_requests = pr :: prs → plan.to_branch = some (prTargetRef pr)

/-- A `(plan, commits)` pair on which the merge loop completes normally: the
plan has a first pull request, a non-`None` `to_branch`, a Stash plan stores a
dict-shaped PR (it is subscripted even on a dry run), and under `confirm` a
GitHub plan stores an object-shaped PR. -/
def pairOK (confirm : Bool) (pc : MergePlan × List String) : Bool :=
  match pc.1.pull_requests with
  | [] => false
  | pr :: _ =>
    pc.1.to_branch.isSome &&
      (if pc.1.comes_from_github then
        (!confirm || (match pr with | .github _ => true | .stash _ => false))
      else (match pr with | .stash _ => true | .github _ => false))

/-- The checkmark line of a `(plan, commits)` pair (the merge loop reads
`plan.to_branch`, here defaulted for totality; `pairOK` rules the `None` case
out). -/
def pairCheckmark (pc : MergePlan × List String) : String :=
  checkmarkLine pc.1.slug pc.2 (pc.1.to_branch.getD "")

/-- A plan whose provider tag matches the shape of its first stored PR (always
true for plans built by `create_plans`); `delete_branches` needs it to read
`pull_requests[0]["id"]` on Stash plans. -/
def planProviderWF (plan : MergePlan) : Bool :=
  plan.comes_from_github ||
    (match plan.pull_requests with
     | [] => true
     | .stash _ :: _ => true
     | .github _ :: _ => false)

/-- Display id of a plan's first matched branch (empty when there is none). -/
def firstBranchDisplay (plan : MergePlan) : String :=
  match plan.branches with
  | [] => ""
  | b :: _ => b.display_id

/-- The Stash branch deletion `delete_branches` performs for a plan. -/
def stashDeleteFor (plan : MergePlan) : Option (String × String × String) :=
  if plan.comes_from_github then none
  else some (plan.project, plan.slug, firstBranchDisplay plan)

/-- The GitHub branch deletion `delete_branches` performs for a plan. -/
def githubDeleteFor (plan : MergePlan) : Option (String × String × String) :=
  if plan.comes_from_github then some (plan.project, plan.slug, firstBranchDisplay plan)
  else none

/-- The decline call `delete_branches` performs for a plan: only Stash plans
with a pull request have their first PR declined. -/
def stashDeclineFor (plan : MergePlan) : Option (String × String × String × String) :=
  if plan.comes_from_github then none
  else
    match plan.pull_requests with
    | .stash spr :: _ => some (plan.project, plan.slug, spr.id, spr.version)
    | _ => none

/-- An environment transformer replacing every `NotFoundException` of the
commit-diff operation by an honest empty commit list. -/
def StashEnv.recoverNotFound (env : StashEnv) : StashEnv :=
  { env with
    fetch_repo_commits := fun project slug f t =>
      some ((env.fetch_repo_commits project slug f t).getD []) }

/-! ### Concrete environments used by witnesses and counterexamples -/

/-- A GitHub provider with no organizations. -/
def emptyGithubEnv : GithubEnv :=
  { url := "https://github.com"
    fetch_repos := fun _ => []
    fetch_branches := fun _ _ _ => []
    fetch_pull_requests := fun _ _ => []
    fetch_repo_commits := fun _ _ _ _ => [] }

/-- A Stash provider with no projects. -/
def emptyStashEnv : StashEnv :=
  { url := "https://server/stash"
    fetch_repos := fun _ => []
    fetch_branches := fun _ _ _ => []
    fetch_pull_requests := fun _ _ => []
    can_merge := fun _ _ _ => true
    fetch_repo_commits := fun _ _ _ _ => none }

/-- One Stash project `PROJ` with one repo `repo1` whose branch `fb-x` has an
open pull request `#10` that is *not* mergeable. -/
def conflictStashEnv : StashEnv :=
  { url := "https://server/stash"
    fetch_repos := fun project =>
      if project = "PROJ" then [{ slug := "repo1", projectKey := "PROJ" }] else []
    fetch_branches := fun _ _ text =>
      if text = "fb-x" then
        [{ id := "refs/heads/fb-x", display_id := "fb-x", latest_commit := "c0" }]
      else []
    fetch_pull_requests := fun _ _ =>
      [{ id := "10", fromRef := "refs/heads/fb-x", toRef := "refs/heads/master",
         url := "u10", version := "1" }]
    can_merge := fun _ _ _ => false
    fetch_repo_commits := fun _ _ _ _ => some ["A", "B"] }

/-- Like `conflictStashEnv` but with no open pull requests anywhere. -/
def noPRStashEnv : StashEnv :=
  { url := "https://server/stash"
    fetch_repos := fun project =>
      if project = "PROJ" then [{ slug := "repo1", projectKey := "PROJ" }] else []
    fetch_branches := fun _ _ text =>
      if text = "fb-x" then
        [{ id := "refs/heads/fb-x", display_id := "fb-x", latest_commit := "c0" }]
      else []
    fetch_pull_requests := fun _ _ => []
    can_merge := fun _ _ _ => true
    fetch_repo_commits := fun _ _ _ _ => none }

/-- Like `conflictStashEnv` but with a mergeable PR and a second project
`PROJ-B` holding a repo also called `repo1` (same slug, no commits, no PR) —
the branch `fb-x` exists in both repos. -/
def twoSlugStashEnv : StashEnv :=
  { url := "https://server/stash"
    fetch_repos := fun project =>
      if project = "PROJ" then [{ slug := "repo1", projectKey := "PROJ" }]
      else if project = "PROJ-B" then [{ slug := "repo1", projectKey := "PROJ-B" }]
      else []
    fetch_branches := fun _ _ text =>
      if text = "fb-x" then
        [{ id := "refs/heads/fb-x", display_id := "fb-x", latest_commit := "c0" }]
      else []
    fetch_pull_requests := fun project _ =>
      if project = "PROJ" then
        [{ id := "10", fromRef := "refs/heads/fb-x", toRef := "refs/heads/master",
           url := "u10", version := "1" }]
      else []
    can_merge := fun _ _ _ => true
    fetch_repo_commits := fun project _ _ _ =>
      if project = "PROJ" then some ["A", "B"] else none }

/-- One GitHub organization `esss` with one repo `deps` whose branch `fb-x`
has a mergeable open pull request `#4` and one commit against master. -/
def ghBugEnv : GithubEnv :=
  { url := "https://github.com"
    fetch_repos := fun org => if org = "esss" then ["deps"] else []
    fetch_branches := fun _ repo name =>
      if repo = "deps" && name = "fb-x" then [{ name := "fb-x", sha := "sha1" }] else []
    fetch_pull_requests := fun _ repo =>
      if repo = "deps" then
        [{ number := 4, headRef := "fb-x", baseRef := "master", url := "u4", mergeable := true }]
      else []
    fetch_repo_commits := fun _ _ _ _ => ["c1"] }

/-- A persisted GitHub plan with an open pull request, as phase 1 of the
deletion workflow would store it. -/
def ghPlanWithPR : MergePlan :=
  { project := "esss", slug := "deps", comes_from_github := true,
    branches := [{ id := "fb-x", display_id := "fb-x", latest_commit := "sha1" }],
    pull_requests := [.github
      { number := 4, headRef := "fb-x", baseRef := "master", url := "u4", mergeable := true }],
    to_branch := some "refs/heads/master" }

/-- A persisted Stash plan with an open pull request. -/
def stashPlanWithPR : MergePlan :=
  { project := "PROJ", slug := "repo1", comes_from_github := false,
    branches := [{ id := "refs/heads/fb-x", display_id := "fb-x", latest_commit := "c0" }],
    pull_requests := [.stash
      { id := "10", fromRef := "refs/heads/fb-x", toRef := "refs/heads/master",
        url := "u10", version := "1" }],
    to_branch := some "refs/heads/master" }

/-- Stash provider for the commit-collection witness: three repos, one with a
PR targeting `refs/heads/target_branch` and commits, one where the default
target exists but the diff is empty, one where it does not exist. -/
def defaultTargetStashEnv : StashEnv :=
  { url := "https://server/stash"
    fetch_repos := fun project =>
      if project = "PROJ" then
        [{ slug := "repo1", projectKey := "PROJ" }, { slug := "repo2", projectKey := "PROJ" },
         { slug := "repo3", projectKey := "PROJ" }]
      else []
    fetch_branches := fun _ slug text =>
      if text = "fb-x" then
        [{ id := "refs/heads/fb-x", display_id := "fb-x", latest_commit := "c0" }]
      else if text = "target_branch" && slug = "repo2" then
        [{ id := "refs/heads/target_branch", display_id := "target_branch",
           latest_commit := "c1" }]
      else []
    fetch_pull_requests := fun _ slug =>
      if slug = "repo1" then
        [{ id := "10", fromRef := "refs/heads/fb-x", toRef := "refs/heads/target_branch",
           url := "u10", version := "1" }]
      else []
    can_merge := fun _ _ _ => true
    fetch_repo_commits := fun _ slug _ t =>
      if slug = "repo1" && t = "refs/heads/target_branch" then some ["A", "B"] else none }

/-- Plan over `repo1` with a PR targeting `refs/heads/target_branch`. -/
def targetPlan1 : MergePlan :=
  { project := "PROJ", slug := "repo1", comes_from_github := false,
    branches := [{ id := "refs/heads/fb-x", display_id := "fb-x", latest_commit := "c0" }],
    pull_requests := [.stash
      { id := "10", fromRef := "refs/heads/fb-x", toRef := "refs/heads/target_branch",
        url := "u10", version := "1" }],
    to_branch := some "refs/heads/target_branch" }

/-- Plan over `repo2` with no PR (its repo has the default target branch). -/
def targetPlan2 : MergePlan :=
  { project := "PROJ", slug := "repo2", comes_from_github := false,
    branches := [{ id := "refs/heads/fb-x", display_id := "fb-x", latest_commit := "c0" }],
    pull_requests := [], to_branch := none }

/-- Plan over `repo3` with no PR (its repo lacks the default target branch). -/
def targetPlan3 : MergePlan :=
  { project := "PROJ", slug := "repo3", comes_from_github := false,
    branches := [{ id := "refs/heads/fb-x", display_id := "fb-x", latest_commit := "c0" }],
    pull_requests := [], to_branch := none }

/-- A plan in project `PROJ-B` whose repository shares the slug `repo1` with
the `PROJ` repository of `stashPlanWithPR`, with no pull request. -/
def noPRPlanSameSlug : MergePlan :=
  { project := "PROJ-B", slug := "repo1", comes_from_github := false,
    branches := [{ id := "refs/heads/fb-x", display_id := "fb-x", latest_commit := "c0" }],
    pull_requests := [], to_branch := none }

/-- A plan whose search text matched two branches, for the ambiguity witness. -/
def ambiguousPlan : MergePlan :=
  { project := "PROJ", slug := "repo1", comes_from_github := false,
    branches :=
      [{ id := "refs/heads/fb-x", display_id := "fb-x", latest_commit := "c0" },
       { id := "refs/heads/fb-x-test", display_id := "fb-x-test", latest_commit := "c1" }],
    pull_requests := [], to_branch := none }

/-- A second ambiguous plan in another repository. -/
def ambiguousPlanB : MergePlan :=
  { project := "PROJ-B", slug := "repo3", comes_from_github := false,
    branches :=
      [{ id := "refs/heads/fb-x", display_id := "fb-x", latest_commit := "c2" },
       { id := "refs/heads/fb-x-wip", display_id := "fb-x-wip", latest_commit := "c3" }],
    pull_requests := [], to_branch := none }

/-! ### Lemmas about the aggregating validation loops -/

theorem aggregate_of_ne_nil (offends : MergePlan → Bool) (header : String)
    (line : MergePlan → String) (plans : List MergePlan) (el : List String) (hel : el ≠ []) :
    aggregate offends header line plans el = el ++ (plans.filter offends).map line := by
  induction plans generalizing el with
  | nil => simp [aggregate]
  | cons p rest ih =>
    by_cases hp : offends p
    · have helE : el.isEmpty = false := by
        cases el with
        | nil => exact absurd rfl hel
        | cons a as => rfl
      have hne : el ++ [line p] ≠ [] := by
        cases el <;> simp
      simp only [aggregate, hp, if_true, helE, Bool.false_eq_true, if_false]
      rw [ih (el ++ [line p]) hne]
      simp [List.filter_cons, hp]
    · simp only [aggregate, hp, Bool.false_eq_true, if_false]
      rw [ih el hel]
      simp [List.filter_cons, hp]

theorem aggregate_nil_eq (offends : MergePlan → Bool) (header : String)
    (line : MergePlan → String) (plans : List MergePlan) :
    aggregate offends header line plans [] =
      (if (plans.filter offends).isEmpty then []
       else header :: (plans.filter offends).map line) := by
  induction plans with
  | nil => simp [aggregate]
  | cons p rest ih =>
    by_cases hp : offends p
    · simp only [aggregate, hp, if_true, List.isEmpty_nil, List.nil_append]
      rw [aggregate_of_ne_nil offends header line rest ([header] ++ [line p]) (by simp)]
      simp [List.filter_cons, hp]
    · simp only [aggregate, hp, Bool.false_eq_true, if_false]
      rw [ih]
      simp [List.filter_cons, hp]

/-- Claim C3: whenever at least one plan has more than one matched branch,
`ensure_text_matches_unique_branch` raises a `CheckError` whose lines are the
header followed by one line for *every* plan with multiple branches (listing
all of its branch display names) and a closing remediation hint; when no plan
has more than one matched branch it returns the display id of the first plan's
single matched branch. -/
theorem C3_unique_branch_validation (plans : List MergePlan) (branch_text : String) :
    (plans.filter hasMultipleBranches ≠ [] →
      ensure_text_matches_unique_branch plans branch_text =
        .error (.check (ambiguousHeader branch_text
          :: (plans.filter hasMultipleBranches).map ambiguousLine
          ++ ["Use a more complete text or remove one of the branches."]))) ∧
    (∀ p ps b bs, plans = p :: ps → p.branches = b :: bs →
      plans.filter hasMultipleBranches = [] →
      ensure_text_matches_unique_branch plans branch_text = .ok b.display_id) := by
  constructor
  · intro hoff
    have hE : (plans.filter hasMultipleBranches).isEmpty = false := by
      cases h : plans.filter hasMultipleBranches with
      | nil => exact absurd h hoff
      | cons a as => rfl
    simp only [ensure_text_matches_unique_branch, aggregate_nil_eq, hE,
      Bool.false_eq_true, if_false]
    simp
  · intro p ps b bs hplans hbranches hflt
    subst hplans
    simp only [ensure_text_matches_unique_branch, aggregate_nil_eq, hflt,
      List.isEmpty_nil, if_true, hbranches]
    simp

/-- Witness for C3 at concrete inputs: two ambiguous plans are both reported,
and a single-branch plan list resolves to its display id. -/
theorem C3_witness :
    ensure_text_matches_unique_branch [ambiguousPlan, stashPlanWithPR, ambiguousPlanB] "fb-x" =
      .error (.check
        ["More than one branch matches the text `\"fb-x\"`:",
         "`repo1`: `fb-x`, `fb-x-test`",
         "`repo3`: `fb-x`, `fb-x-wip`",
         "Use a more complete text or remove one of the branches."]) ∧
    ensure_text_matches_unique_branch [stashPlanWithPR] "fb-x" = .ok "fb-x" := by
  constructor
  · exact ((C3_unique_branch_validation [ambiguousPlan, stashPlanWithPR, ambiguousPlanB]
      "fb-x").1 (by decide)).trans (by decide)
  · exact (C3_unique_branch_validation [stashPlanWithPR] "fb-x").2 stashPlanWithPR []
      { id := "refs/heads/fb-x", display_id := "fb-x", latest_commit := "c0" } []
      (by decide) (by decide) (by decide)

theorem conflictsLoop_eq_aggregate (stash_api : StashEnv) (from_branch : String)
    (plans : List MergePlan) (el : List String)
    (hpr : ∀ p ∈ plans, p.pull_requests ≠ []) :
    conflictsLoop stash_api from_branch plans el =
      .ok (aggregate (conflictOffends stash_api) (conflictsHeader from_branch)
        conflictLine plans el) := by
  induction plans generalizing el with
  | nil => simp [conflictsLoop, aggregate]
  | cons plan rest ih =>
    cases hprs : plan.pull_requests with
    | nil => exact absurd hprs (hpr plan (by simp))
    | cons pr prs =>
      simp only [conflictsLoop, hprs, aggregate]
      rw [ih _ (fun p hp => hpr p (by simp [hp]))]

theorem ensure_no_conflicts_error_lines (stash_api : StashEnv) (from_branch : String)
    (plans : List MergePlan)
    (hpr : ∀ p ∈ plans, p.pull_requests ≠ [])
    (hoff : plans.filter (conflictOffends stash_api) ≠ []) :
    ensure_no_conflicts stash_api from_branch plans =
      .error (.check (conflictsHeader from_branch
        :: (plans.filter (conflictOffends stash_api)).map conflictLine
        ++ ["Fix them and try again."])) := by
  have hE : (plans.filter (conflictOffends stash_api)).isEmpty = false := by
    cases h : plans.filter (conflictOffends stash_api) with
    | nil => exact absurd h hoff
    | cons a as => rfl
  simp only [ensure_no_conflicts, conflictsLoop_eq_aggregate stash_api from_branch plans [] hpr,
    aggregate_nil_eq, hE, Bool.false_eq_true, if_false]
  simp

/-- Claim C1: when the last validation stage fails — every earlier stage
passed and at least one plan's single pull request is not mergeable — `merge`
raises a `CheckError` listing *every* offending repository with its
pull-request link, yields no report lines, and performs no `merge`/`decline`/
`delete_branch` call on either provider (`Effects.empty`): validation runs
strictly before the first mutating call. -/
theorem C1_validation_failure_has_no_side_effects
    (stash_api : StashEnv) (github_api : GithubEnv)
    (stash_projects github_organizations : List String)
    (branch_text from_branch : String) (confirm force : Bool)
    (plans : List MergePlan) (pcs : List (MergePlan × List String))
    (h1 : create_plans stash_api github_api stash_projects github_organizations
      branch_text false true = .ok plans)
    (h2 : ensure_text_matches_unique_branch plans branch_text = .ok from_branch)
    (h3 : ensure_unique_pull_requests plans from_branch = .ok ())
    (h4 : ensure_has_pull_request plans = .ok ())
    (h5 : (if force then Except.ok () else
      ensure_pull_requests_target_same_branch plans from_branch) = .ok ())
    (h6 : get_commits_about_to_be_merged_by_pull_requests stash_api github_api plans
      from_branch = .ok pcs)
    (hpr : ∀ p ∈ pcs.map Prod.fst, p.pull_requests ≠ [])
    (hoff : (pcs.map Prod.fst).filter (conflictOffends stash_api) ≠ []) :
    merge stash_api github_api stash_projects github_organizations branch_text confirm force =
      { lines := [], effects := Effects.empty,
        outcome := .err (.check (conflictsHeader from_branch
          :: ((pcs.map Prod.fst).filter (conflictOffends stash_api)).map conflictLine
          ++ ["Fix them and try again."])) } := by
  have hcks : mergeChecks stash_api github_api stash_projects github_organizations
      branch_text force =
      .error (.check (conflictsHeader from_branch
        :: ((pcs.map Prod.fst).filter (conflictOffends stash_api)).map conflictLine
        ++ ["Fix them and try again."])) := by
    simp only [mergeChecks, h1, h2, h3, h4, h5, h6,
      ensure_no_conflicts_error_lines stash_api from_branch (pcs.map Prod.fst) hpr hoff]
  simp [merge, hcks]

/-- Witness for C1: one Stash repo whose single PR is unmergeable; `merge`
aborts with the `UnmergeablePullRequest`-style report and makes no mutating
call. -/
theorem C1_witness :
    merge conflictStashEnv emptyGithubEnv ["PROJ"] [] "fb-x" true false =
      { lines := [], effects := Effects.empty,
        outcome := .err (.check
          ["The PRs below for branch `fb-x` have problems such as conflicts, build requirements, etc:",
           "`repo1`: [PR#10](u10)",
           "Fix them and try again."]) } := by
  have h := C1_validation_failure_has_no_side_effects conflictStashEnv emptyGithubEnv
    ["PROJ"] [] "fb-x" "fb-x" true false
    [{ project := "PROJ", slug := "repo1", comes_from_github := false,
       branches := [{ id := "refs/heads/fb-x", display_id := "fb-x", latest_commit := "c0" }],
       pull_requests := [.stash
         { id := "10", fromRef := "refs/heads/fb-x", toRef := "refs/heads/master",
           url := "u10", version := "1" }],
       to_branch := some "refs/heads/master" }]
    [({ project := "PROJ", slug := "repo1", comes_from_github := false,
        branches := [{ id := "refs/heads/fb-x", display_id := "fb-x", latest_commit := "c0" }],
        pull_requests := [.stash
          { id := "10", fromRef := "refs/heads/fb-x", toRef := "refs/heads/master",
            url := "u10", version := "1" }],
        to_branch := some "refs/heads/master" }, ["A", "B"])]
    (by decide) (by decide) (by decide) (by decide) (by decide) (by decide)
    (by decide) (by decide)
  exact h.trans (by decide)

/-! ### The `has_prs` flag tracks exactly "some discovered plan has a PR" -/

theorem discoverStash_flag (stash_api : StashEnv) (branch_text : String)
    (exactly_branch_name : Bool) (repos : List StashRepo) (acc : List MergePlan × Bool)
    (h : acc.2 = acc.1.any (fun p => !p.pull_requests.isEmpty)) :
    (discoverStash stash_api branch_text exactly_branch_name repos acc).2 =
      (discoverStash stash_api branch_text exactly_branch_name repos acc).1.any
        (fun p => !p.pull_requests.isEmpty) := by
  induction repos generalizing acc with
  | nil => exact h
  | cons repo rest ih =>
    simp only [discoverStash]
    cases mkStashPlan stash_api branch_text exactly_branch_name repo with
    | none => exact ih acc h
    | some plan =>
      exact ih _ (by simp [h, List.any_append, Bool.or_comm])

theorem githubInner_flag (github_api : GithubEnv) (github_branch_text organization : String)
    (futures : List (String × List GBranch)) (acc : List MergePlan × Bool)
    (h : acc.2 = acc.1.any (fun p => !p.pull_requests.isEmpty)) :
    (githubInner github_api github_branch_text organization futures acc).2 =
      (githubInner github_api github_branch_text organization futures acc).1.any
        (fun p => !p.pull_requests.isEmpty) := by
  induction futures generalizing acc with
  | nil => exact h
  | cons fut rest ih =>
    simp only [githubInner]
    cases mkGithubPlan github_api github_branch_text organization fut.1 fut.2 with
    | none => exact ih acc h
    | some plan =>
      exact ih _ (by simp [h, List.any_append, Bool.or_comm])

theorem discoverGithub_flag (github_api : GithubEnv) (github_branch_text : String)
    (orgRepos : List (String × List String)) (acc : List MergePlan × Bool)
    (futures : List (String × List GBranch))
    (h : acc.2 = acc.1.any (fun p => !p.pull_requests.isEmpty)) :
    (discoverGithub github_api github_branch_text orgRepos acc futures).2 =
      (discoverGithub github_api github_branch_text orgRepos acc futures).1.any
        (fun p => !p.pull_requests.isEmpty) := by
  induction orgRepos generalizing acc futures with
  | nil => exact h
  | cons entry rest ih =>
    cases entry with
    | mk organization repo_names =>
      simp only [discoverGithub]
      exact ih _ _ (githubInner_flag github_api github_branch_text organization _ acc h)

theorem discover_plans_flag (stash_api : StashEnv) (github_api : GithubEnv)
    (stash_projects github_organizations : List String)
    (branch_text : String) (exactly_branch_name : Bool) :
    (discover_plans stash_api github_api stash_projects github_organizations branch_text
      exactly_branch_name).2 =
    (discover_plans stash_api github_api stash_projects github_organizations branch_text
      exactly_branch_name).1.any (fun p => !p.pull_requests.isEmpty) := by
  simp only [discover_plans]
  exact discoverGithub_flag _ _ _ _ _
    (discoverStash_flag _ _ _ _ ([], false) rfl)

/-- Claim C2: `create_plans` fails with the `NoMatchingBranch` `CheckError`
whenever the combined discovered plan list over all Stash projects and GitHub
organizations is empty; it fails with the `NoOpenPullRequest` `CheckError`
whenever `assure_has_prs` is set and no discovered plan has an open pull
request; and when discovery fails, `merge` stops with exactly that error,
before any validation stage and with no report lines and no mutating call. -/
theorem C2_discovery_failures (stash_api : StashEnv) (github_api : GithubEnv)
    (stash_projects github_organizations : List String)
    (branch_text : String) (exactly_branch_name assure_has_prs : Bool) :
    ((discover_plans stash_api github_api stash_projects github_organizations branch_text
        exactly_branch_name).1 = [] →
      create_plans stash_api github_api stash_projects github_organizations branch_text
          exactly_branch_name assure_has_prs =
        .error (.check [noMatchingBranchMessage branch_text stash_projects
          github_organizations])) ∧
    ((discover_plans stash_api github_api stash_projects github_organizations branch_text
        exactly_branch_name).1 ≠ [] →
      assure_has_prs = true →
      (∀ p ∈ (discover_plans stash_api github_api stash_projects github_organizations
        branch_text exactly_branch_name).1, p.pull_requests = []) →
      create_plans stash_api github_api stash_projects github_organizations branch_text
          exactly_branch_name assure_has_prs =
        .error (.check [noOpenPRMessage branch_text])) ∧
    (∀ e confirm force,
      create_plans stash_api github_api stash_projects github_organizations branch_text
        false true = .error e →
      merge stash_api github_api stash_projects github_organizations branch_text
          confirm force =
        { lines := [], effects := Effects.empty, outcome := .err e }) := by
  refine ⟨?_, ?_, ?_⟩
  · intro hempty
    simp [create_plans, hempty]
  · intro hne hassure hnoprs
    have hflag := discover_plans_flag stash_api github_api stash_projects
      github_organizations branch_text exactly_branch_name
    have hany : (discover_plans stash_api github_api stash_projects github_organizations
        branch_text exactly_branch_name).1.any (fun p => !p.pull_requests.isEmpty) = false := by
      simp only [List.any_eq_false]
      intro p hp
      simp [hnoprs p hp]
    have hE : (discover_plans stash_api github_api stash_projects github_organizations
        branch_text exactly_branch_name).1.isEmpty = false := by
      cases h : (discover_plans stash_api github_api stash_projects github_organizations
          branch_text exactly_branch_name).1 with
      | nil => exact absurd h hne
      | cons a as => rfl
    simp [create_plans, hE, hassure, hflag, hany]
  · intro e confirm force hcp
    simp [merge, mergeChecks, hcp]

/-- Witness for C2: discovery over empty providers reports `NoMatchingBranch`;
a matching branch with no PR anywhere reports `NoOpenPullRequest`; and `merge`
returns the former error with no lines and no effect. -/
theorem C2_witness :
    create_plans emptyStashEnv emptyGithubEnv ["PROJ"] ["ORG"] "x" false true =
      .error (.check
        ["Could not find any branch with text `\"x\"` in any repositories of Stash projects: `PROJ` nor Github organizations: `ORG`."]) ∧
    create_plans noPRStashEnv emptyGithubEnv ["PROJ"] [] "fb-x" false true =
      .error (.check ["No PRs are open with text `\"fb-x\"`"]) ∧
    merge emptyStashEnv emptyGithubEnv ["PROJ"] ["ORG"] "x" true false =
      { lines := [], effects := Effects.empty,
        outcome := .err (.check
          ["Could not find any branch with text `\"x\"` in any repositories of Stash projects: `PROJ` nor Github organizations: `ORG`."]) } := by
  refine ⟨?_, ?_, ?_⟩
  · exact ((C2_discovery_failures emptyStashEnv emptyGithubEnv ["PROJ"] ["ORG"] "x"
      false true).1 (by decide)).trans (by decide)
  · exact ((C2_discovery_failures noPRStashEnv emptyGithubEnv ["PROJ"] [] "fb-x"
      false true).2.1 (by decide) rfl (by decide)).trans (by decide)
  · exact (C2_discovery_failures emptyStashEnv emptyGithubEnv ["PROJ"] ["ORG"] "x"
      false true).2.2 _ true false (by decide)

/-! ### Construction invariants of discovered plans -/

theorem stashPlanOf_inv (project slug : String) (branches : List Branch)
    (prs : List StashPR) (hbr : branches ≠ []) :
    planInv (stashPlanOf project slug branches prs) := by
  refine ⟨hbr, ?_, ?_⟩
  · cases prs <;> simp [stashPlanOf]
  · intro pr tl hpr
    cases prs with
    | nil => exact absurd hpr (by simp [stashPlanOf])
    | cons spr rest =>
      simp only [stashPlanOf, List.map_cons, List.cons.injEq] at hpr
      simp [stashPlanOf, ← hpr.1, prTargetRef]

theorem githubPlanOf_inv (organization repo_name : String) (branches : List GBranch)
    (prs : List GithubPR) (hbr : branches ≠ []) :
    planInv (githubPlanOf organization repo_name branches prs) := by
  refine ⟨?_, ?_, ?_⟩
  · cases branches with
    | nil => exact absurd rfl hbr
    | cons b bs => simp [githubPlanOf]
  · cases prs <;> simp [githubPlanOf]
  · intro pr tl hpr
    cases prs with
    | nil => exact absurd hpr (by simp [githubPlanOf])
    | cons gpr rest =>
      simp only [githubPlanOf, List.map_cons, List.cons.injEq] at hpr
      simp [githubPlanOf, ← hpr.1, prTargetRef]

theorem mkStashPlan_inv (stash_api : StashEnv) (branch_text : String)
    (exactly_branch_name : Bool) (repo : StashRepo) (plan : MergePlan)
    (h : mkStashPlan stash_api branch_text exactly_branch_name repo = some plan) :
    planInv plan := by
  simp only [mkStashPlan] at h
  split at h
  · split at h
    · exact absurd h (by simp)
    · next hbr =>
      injection h with h2
      rw [← h2]
      apply stashPlanOf_inv
      intro hnil
      rw [hnil] at hbr
      exact hbr rfl
  · split at h
    · exact absurd h (by simp)
    · next hbr =>
      injection h with h2
      rw [← h2]
      apply stashPlanOf_inv
      intro hnil
      rw [hnil] at hbr
      exact hbr rfl

theorem mkGithubPlan_inv (github_api : GithubEnv) (github_branch_text : String)
    (organization repo_name : String) (branches : List GBranch) (plan : MergePlan)
    (h : mkGithubPlan github_api github_branch_text organization repo_name branches =
      some plan) : planInv plan := by
  simp only [mkGithubPlan] at h
  split at h
  · exact absurd h (by simp)
  · next hbr =>
    injection h with h2
    rw [← h2]
    apply githubPlanOf_inv
    intro hnil
    rw [hnil] at hbr
    exact hbr rfl

theorem discoverStash_inv (stash_api : StashEnv) (branch_text : String)
    (exactly_branch_name : Bool) (repos : List StashRepo) (acc : List MergePlan × Bool)
    (h : ∀ p ∈ acc.1, planInv p) :
    ∀ p ∈ (discoverStash stash_api branch_text exactly_branch_name repos acc).1,
      planInv p := by
  induction repos generalizing acc with
  | nil => exact h
  | cons repo rest ih =>
    simp only [discoverStash]
    cases hmk : mkStashPlan stash_api branch_text exactly_branch_name repo with
    | none => exact ih acc h
    | some plan =>
      refine ih _ ?_
      intro p hp
      rcases List.mem_append.mp hp with hin | hone
      · exact h p hin
      · rw [List.mem_singleton.mp hone]
        exact mkStashPlan_inv stash_api branch_text exactly_branch_name repo plan hmk

theorem githubInner_inv (github_api : GithubEnv) (github_branch_text organization : String)
    (futures : List (String × List GBranch)) (acc : List MergePlan × Bool)
    (h : ∀ p ∈ acc.1, planInv p) :
    ∀ p ∈ (githubInner github_api github_branch_text organization futures acc).1,
      planInv p := by
  induction futures generalizing acc with
  | nil => exact h
  | cons fut rest ih =>
    simp only [githubInner]
    cases hmk : mkGithubPlan github_api github_branch_text organization fut.1 fut.2 with
    | none => exact ih acc h
    | some plan =>
      refine ih _ ?_
      intro p hp
      rcases List.mem_append.mp hp with hin | hone
      · exact h p hin
      · rw [List.mem_singleton.mp hone]
        exact mkGithubPlan_inv github_api github_branch_text organization fut.1 fut.2 plan hmk

theorem discoverGithub_inv (github_api : GithubEnv) (github_branch_text : String)
    (orgRepos : List (String × List String)) (acc : List MergePlan × Bool)
    (futures : List (String × List GBranch))
    (h : ∀ p ∈ acc.1, planInv p) :
    ∀ p ∈ (discoverGithub github_api github_branch_text orgRepos acc futures).1,
      planInv p := by
  induction orgRepos generalizing acc futures with
  | nil => exact h
  | cons entry rest ih =>
    cases entry with
    | mk organization repo_names =>
      simp only [discoverGithub]
      exact ih _ _ (githubInner_inv github_api github_branch_text organization _ acc h)

theorem create_plans_eq_discovered (stash_api : StashEnv) (github_api : GithubEnv)
    (stash_projects github_organizations : List String) (branch_text : String)
    (exactly_branch_name assure_has_prs : Bool) (plans : List MergePlan)
    (h : create_plans stash_api github_api stash_projects github_organizations branch_text
      exactly_branch_name assure_has_prs = .ok plans) :
    plans = (discover_plans stash_api github_api stash_projects github_organizations
      branch_text exactly_branch_name).1 := by
  simp only [create_plans] at h
  split at h
  · exact absurd h (by simp)
  · split at h
    · exact absurd h (by simp)
    · injection h with h2
      exact h2.symm

/-- Claim C10: every plan returned by `create_plans` has a non-empty branch
list and a `to_branch` that is set if and only if the plan has pull requests,
in which case it equals the target ref of the plan's first pull request;
consequently "some plan has a pull request" and "some plan has a set
`to_branch`" are equivalent over any returned plan list. -/
theorem C10_create_plans_invariants (stash_api : StashEnv) (github_api : GithubEnv)
    (stash_projects github_organizations : List String) (branch_text : String)
    (exactly_branch_name assure_has_prs : Bool) (plans : List MergePlan)
    (h : create_plans stash_api github_api stash_projects github_organizations branch_text
      exactly_branch_name assure_has_prs = .ok plans) :
    (∀ plan ∈ plans, planInv plan) ∧
    ((∃ plan ∈ plans, plan.pull_requests ≠ []) ↔ ∃ plan ∈ plans, plan.to_branch.isSome) := by
  have hinv : ∀ plan ∈ plans, planInv plan := by
    rw [create_plans_eq_discovered stash_api github_api stash_projects github_organizations
      branch_text exactly_branch_name assure_has_prs plans h]
    simp only [discover_plans]
    exact discoverGithub_inv _ _ _ _ _
      (discoverStash_inv _ _ _ _ ([], false) (by intro p hp; exact absurd hp (by simp)))
  refine ⟨hinv, ?_, ?_⟩
  · rintro ⟨plan, hmem, hne⟩
    exact ⟨plan, hmem, ((hinv plan hmem).2.1).mpr hne⟩
  · rintro ⟨plan, hmem, hsome⟩
    exact ⟨plan, hmem, ((hinv plan hmem).2.1).mp hsome⟩

/-- Witness for C10 at a concrete discovery over one Stash repo with a PR and
one GitHub repo without one. -/
theorem C10_witness :
    (∀ plan ∈ [stashPlanWithPR], planInv plan) ∧
    ((∃ plan ∈ [stashPlanWithPR], plan.pull_requests ≠ []) ↔
      ∃ plan ∈ [stashPlanWithPR], plan.to_branch.isSome) :=
  C10_create_plans_invariants conflictStashEnv emptyGithubEnv ["PROJ"] [] "fb-x"
    false true [stashPlanWithPR] (by decide)

/-! ### Commit collection: result characterization and NotFound recovery -/

theorem getCommitsLoop_res (stash_api : StashEnv) (github_api : GithubEnv)
    (from_branch default_branch : String) (plans : List MergePlan)
    (el : List String) (res : List (MergePlan × List String)) :
    (getCommitsLoop stash_api github_api from_branch default_branch plans el res).2 =
      res ++ plans.filterMap (fun plan =>
        let cs := diffAt stash_api github_api from_branch
          (planDiffTarget stash_api github_api default_branch plan) plan
        if cs.isEmpty then none else some (plan, cs)) := by
  induction plans generalizing el res with
  | nil => simp [getCommitsLoop]
  | cons plan rest ih =>
    simp only [getCommitsLoop]
    by_cases hc : diffAt stash_api github_api from_branch
        (planDiffTarget stash_api github_api default_branch plan) plan = []
    · have hce : (diffAt stash_api github_api from_branch
          (planDiffTarget stash_api github_api default_branch plan) plan).isEmpty = true := by
        simp [hc]
      simp only [hce, Bool.not_true, Bool.false_and, Bool.false_eq_true, if_false]
      rw [ih]
      simp [List.filterMap_cons, hc]
    · have hce : (diffAt stash_api github_api from_branch
          (planDiffTarget stash_api github_api default_branch plan) plan).isEmpty = false := by
        rw [Bool.eq_false_iff]
        intro ht
        exact hc (List.isEmpty_iff.mp ht)
      simp only [hce, Bool.not_false, Bool.true_and, if_true]
      rw [ih]
      simp [List.filterMap_cons, hc]

/-- Claim C7: a successful run of
`get_commits_about_to_be_merged_by_pull_requests` returns exactly the
`(plan, commits)` pairs with a non-empty diff, where each plan is diffed
against its own truthy `to_branch` when set, else against the default target
(the first truthy `to_branch` across all plans) when a per-repo branch lookup
finds it, else against `refs/heads/master`. -/
theorem C7_commit_collection (stash_api : StashEnv) (github_api : GithubEnv)
    (plans : List MergePlan) (from_branch default_branch : String)
    (res : List (MergePlan × List String))
    (hd : firstTruthyToBranch plans = some default_branch)
    (hok : get_commits_about_to_be_merged_by_pull_requests stash_api github_api plans
      from_branch = .ok res) :
    res = plans.filterMap (fun plan =>
      let cs := diffAt stash_api github_api from_branch
        (planDiffTarget stash_api github_api default_branch plan) plan
      if cs.isEmpty then none else some (plan, cs)) := by
  simp only [get_commits_about_to_be_merged_by_pull_requests, hd] at hok
  split at hok
  · exact absurd hok (by simp)
  · injection hok with h2
    rw [← h2, getCommitsLoop_res]
    simp

/-- Witness for C7: three plans exercising all three target choices (own
target, existing default target, `refs/heads/master` fallback); only the
first has a non-empty diff. -/
theorem C7_witness :
    [(targetPlan1, ["A", "B"])] =
      [targetPlan1, targetPlan2, targetPlan3].filterMap (fun plan =>
        let cs := diffAt defaultTargetStashEnv emptyGithubEnv "fb-x"
          (planDiffTarget defaultTargetStashEnv emptyGithubEnv
            "refs/heads/target_branch" plan) plan
        if cs.isEmpty then none else some (plan, cs)) :=
  C7_commit_collection defaultTargetStashEnv emptyGithubEnv
    [targetPlan1, targetPlan2, targetPlan3] "fb-x" "refs/heads/target_branch"
    [(targetPlan1, ["A", "B"])] (by decide) (by decide)

theorem getCommitsLoop_recover (stash_api : StashEnv) (github_api : GithubEnv)
    (from_branch default_branch : String) (plans : List MergePlan)
    (el : List String) (res : List (MergePlan × List String)) :
    getCommitsLoop stash_api.recoverNotFound github_api from_branch default_branch
        plans el res =
      getCommitsLoop stash_api github_api from_branch default_branch plans el res := by
  induction plans generalizing el res with
  | nil => rfl
  | cons plan rest ih =>
    simp only [getCommitsLoop]
    exact ih _ _

/-- Claim C8: replacing every `NotFoundException` of the Stash commit-diff
operation by an honest empty commit list does not change the outcome of
commit collection at all — for every plan from either provider and whatever
target ref the diff was taken against, a `NotFound` is recovered internally
and is indistinguishable from a diff returning zero commits. -/
theorem C8_notfound_is_zero_commits (stash_api : StashEnv) (github_api : GithubEnv)
    (plans : List MergePlan) (from_branch : String) :
    get_commits_about_to_be_merged_by_pull_requests stash_api.recoverNotFound github_api
        plans from_branch =
      get_commits_about_to_be_merged_by_pull_requests stash_api github_api plans
        from_branch := by
  simp only [get_commits_about_to_be_merged_by_pull_requests]
  cases firstTruthyToBranch plans with
  | none => rfl
  | some default_branch =>
    simp only [getCommitsLoop_recover]

/-! ### The merge report phase -/

theorem mergeLoop1_ok (confirm : Bool) (pcs : List (MergePlan × List String))
    (lines : List String) (eff : Effects) (shown : List String)
    (h : ∀ pc ∈ pcs, pairOK confirm pc = true) :
    ∃ eff2, mergeLoop1 confirm pcs lines eff shown =
      (lines ++ pcs.map pairCheckmark, eff2,
       shown ++ pcs.map (fun pc => pc.1.slug), none) := by
  induction pcs generalizing lines eff shown with
  | nil => exact ⟨eff, by simp [mergeLoop1]⟩
  | cons pc rest ih =>
    obtain ⟨plan, commits⟩ := pc
    have h0 := h (plan, commits) (by simp)
    have hrest : ∀ x ∈ rest, pairOK confirm x = true :=
      fun x hx => h x (List.mem_cons_of_mem _ hx)
    simp only [pairOK] at h0
    cases hprs : plan.pull_requests with
    | nil => rw [hprs] at h0; simp at h0
    | cons pr prest =>
      rw [hprs] at h0
      simp only [Bool.and_eq_true] at h0
      obtain ⟨hsome, hdispatch⟩ := h0
      cases htb : plan.to_branch with
      | none => rw [htb] at hsome; simp at hsome
      | some tb =>
        cases hcg : plan.comes_from_github with
        | false =>
          rw [hcg] at hdispatch
          simp only [Bool.false_eq_true, if_false] at hdispatch
          cases pr with
          | github gpr => simp at hdispatch
          | stash spr =>
            cases confirm with
            | false =>
              simp only [mergeLoop1, hprs, hcg, htb, Bool.false_eq_true, if_false]
              obtain ⟨eff2, he⟩ := ih (lines ++ [checkmarkLine plan.slug commits tb]) eff
                (shown ++ [plan.slug]) hrest
              refine ⟨eff2, ?_⟩
              rw [he]
              simp [pairCheckmark, htb]
            | true =>
              simp only [mergeLoop1, hprs, hcg, htb, Bool.false_eq_true, if_false, if_true]
              obtain ⟨eff2, he⟩ := ih (lines ++ [checkmarkLine plan.slug commits tb])
                { eff with merged_stash :=
                    eff.merged_stash ++ [(plan.project, plan.slug, spr.id, spr.version)] }
                (shown ++ [plan.slug]) hrest
              refine ⟨eff2, ?_⟩
              rw [he]
              simp [pairCheckmark, htb]
        | true =>
          rw [hcg] at hdispatch
          simp only [if_true] at hdispatch
          cases confirm with
          | false =>
            simp only [mergeLoop1, hprs, hcg, htb, if_true, Bool.false_eq_true, if_false]
            obtain ⟨eff2, he⟩ := ih (lines ++ [checkmarkLine plan.slug commits tb]) eff
              (shown ++ [plan.slug]) hrest
            refine ⟨eff2, ?_⟩
            rw [he]
            simp [pairCheckmark, htb]
          | true =>
            simp only [Bool.not_true, Bool.false_or] at hdispatch
            cases pr with
            | stash spr => simp at hdispatch
            | github gpr =>
              simp only [mergeLoop1, hprs, hcg, htb, if_true]
              obtain ⟨eff2, he⟩ := ih (lines ++ [checkmarkLine plan.slug commits tb])
                { eff with merged_github :=
                    eff.merged_github ++ [(plan.project, plan.slug, gpr.number)] }
                (shown ++ [plan.slug]) hrest
              refine ⟨eff2, ?_⟩
              rw [he]
              simp [pairCheckmark, htb]

/-- Claim C6 (corrected): on a successful run, after the checkmark lines
`merge` emits exactly one `(no changes)` line for every discovered plan whose
*slug* is not among the slugs of the commit-bearing pairs — membership is
tested by slug (`shown` is a set of slugs), not by plan identity, so a
commit-less plan sharing its slug with a commit-bearing plan gets no line. -/
theorem C6_no_changes_lines_by_slug (stash_api : StashEnv) (github_api : GithubEnv)
    (stash_projects github_organizations : List String)
    (branch_text from_branch : String) (confirm force : Bool)
    (plans : List MergePlan) (pcs : List (MergePlan × List String))
    (h1 : create_plans stash_api github_api stash_projects github_organizations
      branch_text false true = .ok plans)
    (h2 : ensure_text_matches_unique_branch plans branch_text = .ok from_branch)
    (h3 : ensure_unique_pull_requests plans from_branch = .ok ())
    (h4 : ensure_has_pull_request plans = .ok ())
    (h5 : (if force then Except.ok () else
      ensure_pull_requests_target_same_branch plans from_branch) = .ok ())
    (h6 : get_commits_about_to_be_merged_by_pull_requests stash_api github_api plans
      from_branch = .ok pcs)
    (h7 : ensure_no_conflicts stash_api from_branch (pcs.map Prod.fst) = .ok ())
    (hpc : ∀ pc ∈ pcs, pairOK confirm pc = true) :
    ∃ rest,
      (merge stash_api github_api stash_projects github_organizations branch_text
        confirm force).lines =
      ("Branch " ++ backquote from_branch ++ " merged into:") :: pcs.map pairCheckmark
        ++ (plans.filter (fun p =>
            !((pcs.map (fun pc => pc.1.slug)).contains p.slug))).map
          (fun p => noChangesLine p.slug)
        ++ rest := by
  have hcks : mergeChecks stash_api github_api stash_projects github_organizations
      branch_text force = .ok (plans, from_branch, pcs) := by
    simp only [mergeChecks, h1, h2, h3, h4, h5, h6, h7]
  obtain ⟨eff2, heq⟩ := mergeLoop1_ok confirm pcs
    ["Branch " ++ backquote from_branch ++ " merged into:"] Effects.empty [] hpc
  simp only [merge, hcks, mergeBody, heq]
  cases hdel : mergeDeleteLoop confirm plans eff2 with
  | mk eff3 errOpt =>
    cases errOpt with
    | some e => exact ⟨[], by simp⟩
    | none =>
      refine ⟨[deletedSummaryLine plans] ++ (if !confirm then [dryRunLine] else []), ?_⟩
      cases confirm <;> simp

/-- Witness for the amended C6: one commit-bearing repo and two commit-less
repos with distinct slugs each get their `(no changes)` line after the
checkmark line. -/
theorem C6_witness :
    ∃ rest,
      (merge defaultTargetStashEnv emptyGithubEnv ["PROJ"] [] "fb-x" false false).lines =
      ("Branch " ++ backquote "fb-x" ++ " merged into:")
        :: [(targetPlan1, ["A", "B"])].map pairCheckmark
        ++ ([targetPlan1, targetPlan2, targetPlan3].filter (fun p =>
            !(([(targetPlan1, ["A", "B"])].map
              (fun pc => pc.1.slug)).contains p.slug))).map (fun p => noChangesLine p.slug)
        ++ rest :=
  C6_no_changes_lines_by_slug defaultTargetStashEnv emptyGithubEnv ["PROJ"] []
    "fb-x" "fb-x" false false [targetPlan1, targetPlan2, targetPlan3]
    [(targetPlan1, ["A", "B"])] (by decide) (by decide) (by decide) (by decide)
    (by decide) (by decide) (by decide) (by decide)

/-- Counterexample to C6 as stated: two discovered plans share the slug
`repo1`; the `PROJ-B` plan is not among the commit-bearing pairs, yet its
`(no changes)` line appears zero times in the report (the claim requires
exactly one). -/
theorem C6_counterexample :
    create_plans twoSlugStashEnv emptyGithubEnv ["PROJ", "PROJ-B"] [] "fb-x" false true =
      .ok [stashPlanWithPR, noPRPlanSameSlug] ∧
    get_commits_about_to_be_merged_by_pull_requests twoSlugStashEnv emptyGithubEnv
      [stashPlanWithPR, noPRPlanSameSlug] "fb-x" = .ok [(stashPlanWithPR, ["A", "B"])] ∧
    noPRPlanSameSlug.slug = "repo1" ∧
    (merge twoSlugStashEnv emptyGithubEnv ["PROJ", "PROJ-B"] [] "fb-x" false false).lines =
      ["Branch `fb-x` merged into:",
       ":white_check_mark: `repo1` **2 commits** -> `master`",
       "Branch deleted from repositories: `repo1`, `repo1`",
       dryRunLine] ∧
    ((merge twoSlugStashEnv emptyGithubEnv ["PROJ", "PROJ-B"] [] "fb-x" false
      false).lines.count (noChangesLine "repo1")) = 0 := by
  decide

theorem mergeLoop1_false_effects (pcs : List (MergePlan × List String))
    (lines : List String) (eff : Effects) (shown : List String) :
    (mergeLoop1 false pcs lines eff shown).2.1 = eff := by
  induction pcs generalizing lines eff shown with
  | nil => rfl
  | cons pc rest ih =>
    obtain ⟨plan, commits⟩ := pc
    simp only [mergeLoop1, Bool.false_eq_true, if_false]
    cases plan.pull_requests with
    | nil => rfl
    | cons pr prest =>
      cases hcg : plan.comes_from_github with
      | true =>
        simp only [hcg, if_true]
        cases plan.to_branch with
        | none => rfl
        | some tb => exact ih _ _ _
      | false =>
        simp only [hcg, Bool.false_eq_true, if_false]
        cases pr with
        | github gpr => rfl
        | stash spr =>
          cases plan.to_branch with
          | none => rfl
          | some tb => exact ih _ _ _

theorem mergeDeleteLoop_false (plans : List MergePlan) (eff : Effects) :
    mergeDeleteLoop false plans eff = (eff, none) := by
  induction plans with
  | nil => rfl
  | cons plan rest ih =>
    simp only [mergeDeleteLoop, Bool.false_eq_true, if_false]
    exact ih

theorem mergeBody_false_effects (plans : List MergePlan) (from_branch : String)
    (pcs : List (MergePlan × List String)) :
    (mergeBody plans from_branch pcs false).effects = Effects.empty := by
  cases hml : mergeLoop1 false pcs
      ["Branch " ++ backquote from_branch ++ " merged into:"] Effects.empty [] with
  | mk lines rest3 =>
    obtain ⟨eff, shown, errOpt⟩ := rest3
    have heff : eff = Effects.empty := by
      have h2 := mergeLoop1_false_effects pcs
        ["Branch " ++ backquote from_branch ++ " merged into:"] Effects.empty []
      rw [hml] at h2
      exact h2
    subst heff
    simp only [mergeBody, hml]
    cases errOpt with
    | some e => rfl
    | none =>
      simp [mergeDeleteLoop_false]

/-- Claim C9 (code bug): with `confirm=false` a `merge` run performs zero
mutating provider calls, whatever the input.  But the claimed report equality
fails on the code: with a GitHub plan, the `confirm=true` run dies with an
`AttributeError` (`plan.branches[0].name`) before the deletion-summary line,
so the dry-run report is not the confirmed report plus the dry-run marker —
the dry run has two extra lines, not one. -/
theorem C9_dry_run_frame :
    (∀ (stash_api : StashEnv) (github_api : GithubEnv)
       (stash_projects github_organizations : List String) (branch_text : String)
       (force : Bool),
      (merge stash_api github_api stash_projects github_organizations branch_text false
        force).effects = Effects.empty) ∧
    (merge emptyStashEnv ghBugEnv [] ["esss"] "fb-x" false false).lines =
      ["Branch `fb-x` merged into:",
       ":white_check_mark: `deps` **1 commit** -> `master`",
       "Branch deleted from repositories: `deps`", dryRunLine] ∧
    (merge emptyStashEnv ghBugEnv [] ["esss"] "fb-x" true false).lines =
      ["Branch `fb-x` merged into:",
       ":white_check_mark: `deps` **1 commit** -> `master`"] ∧
    (merge emptyStashEnv ghBugEnv [] ["esss"] "fb-x" true false).outcome =
      .err .attributeError := by
  refine ⟨?_, by decide, by decide, by decide⟩
  intro stash_api github_api stash_projects github_organizations branch_text force
  cases hcks : mergeChecks stash_api github_api stash_projects github_organizations
      branch_text force with
  | error e => simp [merge, hcks]
  | ok t =>
    obtain ⟨plans, from_branch, pcs⟩ := t
    simp only [merge, hcks]
    exact mergeBody_false_effects plans from_branch pcs

/-- Claim C4 (code bug): with `confirm=true` and a discovered GitHub plan, the
deletion loop of `merge` evaluates `plan.branches[0].name`; `Branch` has no
`name` attribute, so the run raises `AttributeError` after the checkmark
lines: no GitHub branch is deleted and the summary line never appears, while
the repository's own tests (`test_merge_success`, `test_merge_success_github`)
expect the branch deleted from every repository and the summary line
emitted. -/
theorem C4_github_branch_deletion_crashes :
    merge emptyStashEnv ghBugEnv [] ["esss"] "fb-x" true false =
      { lines := ["Branch `fb-x` merged into:",
                  ":white_check_mark: `deps` **1 commit** -> `master`"],
        effects := { merged_stash := [], merged_github := [("esss", "deps", 4)],
                     deleted_stash := [], deleted_github := [], declined := [] },
        outcome := .err .attributeError } := by
  decide

/-! ### The two-phase deletion workflow, phase 2 -/

theorem deleteLoop_spec (plans : List MergePlan) (lines : List String) (eff : Effects)
    (hb : ∀ p ∈ plans, p.branches ≠ [])
    (hwf : ∀ p ∈ plans, planProviderWF p = true) :
    deleteLoop plans lines eff =
      (lines ++ plans.map deleteLineFor,
       { eff with
         deleted_stash := eff.deleted_stash ++ plans.filterMap stashDeleteFor,
         deleted_github := eff.deleted_github ++ plans.filterMap githubDeleteFor,
         declined := eff.declined ++ plans.filterMap stashDeclineFor },
       none) := by
  induction plans generalizing lines eff with
  | nil => simp [deleteLoop]
  | cons plan rest ih =>
    have hb0 := hb plan (by simp)
    have hwf0 := hwf plan (by simp)
    have hbrest : ∀ p ∈ rest, p.branches ≠ [] :=
      fun p hp => hb p (List.mem_cons_of_mem _ hp)
    have hwfrest : ∀ p ∈ rest, planProviderWF p = true :=
      fun p hp => hwf p (List.mem_cons_of_mem _ hp)
    cases hbr : plan.branches with
    | nil => exact absurd hbr hb0
    | cons b bs =>
      have hfbd : firstBranchDisplay plan = b.display_id := by
        simp [firstBranchDisplay, hbr]
      cases hcg : plan.comes_from_github with
      | true =>
        simp only [deleteLoop, hcg, if_true, hbr]
        rw [ih (lines ++ [deleteLineFor plan]) _ hbrest hwfrest]
        simp [List.filterMap_cons, stashDeleteFor, githubDeleteFor, stashDeclineFor,
          hcg, hfbd]
      | false =>
        cases hprs : plan.pull_requests with
        | nil =>
          simp only [deleteLoop, hcg, Bool.false_eq_true, if_false, hprs, hbr]
          rw [ih (lines ++ [deleteLineFor plan]) _ hbrest hwfrest]
          simp [List.filterMap_cons, stashDeleteFor, githubDeleteFor, stashDeclineFor,
            hcg, hprs, hfbd]
        | cons pr prest =>
          cases pr with
          | github gpr =>
            simp [planProviderWF, hcg, hprs] at hwf0
          | stash spr =>
            simp only [deleteLoop, hcg, Bool.false_eq_true, if_false, hprs, hbr]
            rw [ih (lines ++ [deleteLineFor plan]) _ hbrest hwfrest]
            simp [List.filterMap_cons, stashDeleteFor, githubDeleteFor, stashDeclineFor,
              hcg, hprs, hfbd]

/-- Claim C5 (corrected): in phase 2 of the deletion workflow an empty
persisted list yields exactly the single `No branches to delete.` line with no
provider call; a non-empty list yields one header plus one line per
repository, deletes every plan's branch (both providers), but declines a pull
request only for *hierarchical-provider* plans that have one — a GitHub plan's
pull request is never declined. -/
theorem C5_delete_branches_behaviour (stash_api : StashEnv) (github_api : GithubEnv)
    (plans : List MergePlan)
    (hb : ∀ p ∈ plans, p.branches ≠ [])
    (hwf : ∀ p ∈ plans, planProviderWF p = true) :
    (delete_branches stash_api github_api [] =
      { lines := ["No branches to delete."], effects := Effects.empty, outcome := .ok }) ∧
    (∀ first rest2, plans = first :: rest2 →
      delete_branches stash_api github_api plans =
        { lines := ("Deleting Branches " ++ backquote (firstBranchDisplay first) ++ ":")
            :: plans.map deleteLineFor,
          effects := { Effects.empty with
            deleted_stash := plans.filterMap stashDeleteFor,
            deleted_github := plans.filterMap githubDeleteFor,
            declined := plans.filterMap stashDeclineFor },
          outcome := .ok }) := by
  constructor
  · rfl
  · intro first rest2 hplans
    subst hplans
    have hb0 := hb first (by simp)
    cases hbr : first.branches with
    | nil => exact absurd hbr hb0
    | cons fb bs =>
      simp only [delete_branches, hbr]
      rw [deleteLoop_spec (first :: rest2) _ Effects.empty hb hwf]
      have hfbd : firstBranchDisplay first = fb.display_id := by
        simp [firstBranchDisplay, hbr]
      simp [Effects.empty, hfbd]

/-- Witness for the amended C5: a Stash plan and a GitHub plan, both with a
pull request; only the Stash PR is declined, both branches are deleted, one
line per repository after the header. -/
theorem C5_witness :
    delete_branches emptyStashEnv emptyGithubEnv [] =
      { lines := ["No branches to delete."], effects := Effects.empty, outcome := .ok } ∧
    delete_branches emptyStashEnv emptyGithubEnv [stashPlanWithPR, ghPlanWithPR] =
      { lines :=
          ["Deleting Branches `fb-x`:",
           "Branch from `Stash` project: `PROJ` - repository: `repo1` :nuclear-bomb:",
           "Branch from `GitHub` project: `esss` - repository: `deps` :nuclear-bomb:"],
        effects := { merged_stash := [], merged_github := [],
                     deleted_stash := [("PROJ", "repo1", "fb-x")],
                     deleted_github := [("esss", "deps", "fb-x")],
                     declined := [("PROJ", "repo1", "10", "1")] },
        outcome := .ok } := by
  have h := C5_delete_branches_behaviour emptyStashEnv emptyGithubEnv
    [stashPlanWithPR, ghPlanWithPR] (by decide) (by decide)
  exact ⟨h.1, (h.2 stashPlanWithPR [ghPlanWithPR] rfl).trans (by decide)⟩

/-- Counterexample to C5 as stated: a persisted GitHub plan with one open pull
request is processed to completion (its branch is deleted and its line is
reported), yet no pull request is declined anywhere — contradicting "if the
plan has a pull request, the pull request is declined ... for plans from both
providers". -/
theorem C5_counterexample :
    ghPlanWithPR.pull_requests.length = 1 ∧
    ghPlanWithPR.comes_from_github = true ∧
    (delete_branches emptyStashEnv emptyGithubEnv [ghPlanWithPR]).outcome = .ok ∧
    (delete_branches emptyStashEnv emptyGithubEnv [ghPlanWithPR]).effects.declined = [] ∧
    (delete_branches emptyStashEnv emptyGithubEnv [ghPlanWithPR]).effects.deleted_github =
      [("esss", "deps", "fb-x")] := by
  decide

end ErrStash
